import Mathlib

/-!
# Verification of the taxdash SPED ingestion engine (`src/taxdash/loaders.py`)

Shallow embedding of the ingestion core of the `taxdash` package:

* `load_and_process_data`       — SPED Contribuições loader (loaders.py:12-137)
* `load_and_process_sped_fiscal`— SPED Fiscal loader        (loaders.py:141-252)
* `process_single_ecd_file`     — per-file ECD pipeline     (loaders.py:255-446)
* `load_and_process_ecd`        — ECD batch loader          (loaders.py:450-480)

Modelling conventions:

* A decoded text file is a `List String` of lines (Python `content.split('\n')`).
* A parsed row is a `List (Option String)` of exactly `ncols` fields, one per
  positional column name `'0'..'<ncols-1>'`; `none` models a pandas `NaN`
  (an empty field, or a field absent because the line had fewer delimiters
  than the schema's column count, which pandas pads with `NaN`).  Lines with
  MORE fields than the column count are the pandas "bad lines" and are
  dropped (`on_bad_lines="skip"`); blank lines are skipped
  (`skip_blank_lines` default).
* pandas/streamlit are external collaborators.  The possibility that a
  decoding tier raises a structural parse error is abstracted by boolean
  flags on the input file (`InputFile.cFails`, …); when a tier succeeds the
  rows it yields are the pipe-split fields of the (pre-scanned) lines.
  `st.error` + `st.stop` and uncaught exceptions are both modelled as
  `Except.error` with distinct payloads recording which failure occurred.
* Python `str(i)` is embedded as `natStr`, `str.zfill(7)` as `zfill7`,
  `str.split('|')` as `splitPipe`, `str.startswith(p)` as `strStarts`,
  `s[2:]` as `String.drop s 2`, `Series.ffill()` as `ffillCol`.
-/

/-! ## String primitives -/

/-- `charsStart p s`: the character list `p` is an initial segment of `s`
(model of Python `str.startswith` at the character level). -/
def charsStart : List Char → List Char → Bool
  | [], _ => true
  | _ :: _, [] => false
  | a :: as, b :: bs => a = b && charsStart as bs

/-- Python `s.startswith(p)`. -/
def strStarts (p s : String) : Bool := charsStart p.toList s.toList

/-- Split a character list at `'|'` (model of Python `str.split('|')`):
`"‖a‖"`-style inputs produce the same leading/trailing empty components as
Python does. -/
def splitChars : List Char → List (List Char)
  | [] => [[]]
  | c :: cs =>
    if c = '|' then [] :: splitChars cs
    else match splitChars cs with
      | [] => [[c]]
      | h :: t => (c :: h) :: t

/-- Python `line.split('|')`. -/
def splitPipe (s : String) : List String := (splitChars s.toList).map String.mk

/-! ## Decimal rendering of naturals (Python `str(i)`, `str.zfill`) -/

/-- The decimal digit character for `d % 10`-sized values. -/
def decDigit (d : Nat) : Char :=
  if d = 0 then '0' else if d = 1 then '1' else if d = 2 then '2'
  else if d = 3 then '3' else if d = 4 then '4' else if d = 5 then '5'
  else if d = 6 then '6' else if d = 7 then '7' else if d = 8 then '8' else '9'

/-- Value of a decimal digit character (inverse of `decDigit` on `0..9`). -/
def digitVal (c : Char) : Nat :=
  if c = '0' then 0 else if c = '1' then 1 else if c = '2' then 2
  else if c = '3' then 3 else if c = '4' then 4 else if c = '5' then 5
  else if c = '6' then 6 else if c = '7' then 7 else if c = '8' then 8 else 9

/-- Fuel-driven decimal digit expansion, most significant digit first. -/
def natDigitsAux : Nat → Nat → List Char
  | 0, _ => []
  | fuel + 1, n =>
    if n < 10 then [decDigit n]
    else natDigitsAux fuel (n / 10) ++ [decDigit (n % 10)]

/-- Decimal digits of `n`, most significant first (no leading zeros). -/
def natDigits (n : Nat) : List Char := natDigitsAux (n + 1) n

/-- Python `str(n)` for a natural number. -/
def natStr (n : Nat) : String := String.mk (natDigits n)

/-- Numeric value of a digit string (left fold, most significant first). -/
def numVal (l : List Char) : Nat := l.foldl (fun a c => 10 * a + digitVal c) 0

/-- Python `s.zfill(7)` (numpy `np.char.zfill(_, 7)`): left-pad with `'0'`
to width 7. -/
def zfill7 (s : String) : String :=
  String.mk (List.replicate (7 - s.length) '0' ++ s.data)

/-! ## Rows and line parsing -/

/-- One parsed field: `none` is a pandas `NaN`. -/
abbrev Cell := Option String

/-- One parsed row: exactly `ncols` fields (columns `'0'`, `'1'`, …). -/
abbrev Row := List Cell

/-- An empty CSV field becomes `NaN` under `dtype=str` (otherwise the raw
text is kept). -/
def toField (s : String) : Cell := if s = "" then none else some s

/-- `pd.read_csv(..., names=['0'..str (ncols-1)], dtype=str,
on_bad_lines="skip")` applied to one line: blank lines are skipped, lines
with more fields than `ncols` are dropped as bad lines, shorter lines are
padded with `NaN`. -/
def parseLine (ncols : Nat) (line : String) : Option Row :=
  if line = "" then none
  else
    let fs := splitPipe line
    if ncols < fs.length then none
    else some (fs.map toField ++ List.replicate (ncols - fs.length) none)

/-- Parse a list of lines into rows, dropping blank and bad lines. -/
def parseRows (ncols : Nat) (lines : List String) : List Row :=
  lines.filterMap (parseLine ncols)

/-- The record-type code of a row: named column `"1"`, i.e. the second
pipe-separated field (`loaders.py` addresses it as `df['1']`). -/
def recType (r : Row) : Cell := r.getD 1 none

/-- `df['1'].astype(str).eq(code)` on one row (`NaN` stringifies to
`"nan"`, which matches no register code). -/
def isType (code : String) (r : Row) : Bool := recType r = some code

/-- Everything up to and including the first element satisfying `p`; the
whole list if no element does.  This is the recursive form of the source
idiom `cut = argmax(mask); take (cut+1) if mask.any() else whole`
(`loaders.py:87-91`, `:413-417`) and of the `for idx, line ...: break`
pre-scan (`loaders.py:34-46`). -/
def takeThroughFirst (p : α → Bool) : List α → List α
  | [] => []
  | x :: xs => if p x then [x] else x :: takeThroughFirst p xs

/-- Pre-scan truncation: keep lines up to and including the first line
starting with `|9999|` (`loaders.py:34-46`, `:159-171`, `:267-279`). -/
def preScan (lines : List String) : List String :=
  takeThroughFirst (strStarts "|9999|") lines

/-- Post-parse sentinel truncation: keep rows up to and including the first
row whose record-type equals the sentinel (`loaders.py:87-91`, `:413-417`). -/
def cutSentinel (code : String) (rows : List Row) : List Row :=
  takeThroughFirst (isType code) rows

/-! ## Schema constants (`src/taxdash/config.py`) -/

/-- `config.CHUNK_SIZE`. -/
def chunkSize : Nat := 200000

/-- `config.COLUMN_COUNT_CONTRIB`. -/
def columnCountContrib : Nat := 40

/-- `config.COLUMN_COUNT_FISCAL`. -/
def columnCountFiscal : Nat := 42

/-- `config.COLUMN_COUNT_ECD`. -/
def columnCountEcd : Nat := 40

/-- `config.PARENT_REG_CONTRIB`. -/
def parentRegContrib : List String :=
  ["0000", "0140", "A100", "C100", "C180", "C190", "C380", "C400", "C500",
   "C600", "C800", "D100", "D500", "F100", "F120", "F130", "F150", "F200",
   "F500", "F600", "F700", "F800", "I100", "M100", "M200", "M300", "M350",
   "M400", "M500", "M600", "M700", "M800", "P100", "P200", "1010", "1020",
   "1050", "1100", "1200", "1300", "1500", "1600", "1700", "1800", "1900"]

/-- `config.PARENT_REG_FISCAL`. -/
def parentRegFiscal : List String :=
  ["0000",
   "C100", "C300", "C350", "C400", "C495", "C500", "C600", "C700", "C800", "C860",
   "D100", "D300", "D350", "D400", "D500", "D600", "D695", "D700", "D750",
   "E100", "E200", "E300", "E500",
   "G110",
   "H005",
   "K100", "K200", "K210", "K220", "K230", "K250", "K260", "K270", "K280", "K290", "K300",
   "1100", "1200", "1300", "1350", "1390", "1400", "1500", "1600", "1601", "1700", "1800",
   "1900", "1960", "1970", "1980"]

/-- `config.PARENT_REG_ECD`. -/
def parentRegEcd : List String :=
  ["0000", "0001", "C001", "C040", "C050", "C150", "C600", "I001", "I010", "I050", "I150"]

/-- `df['1'].isin(parent_reg_codes)` on one row (`NaN` is in no list). -/
def isAnchor (codes : List String) (r : Row) : Bool :=
  match recType r with
  | some t => codes.contains t
  | none => false

/-! ## Composite identifiers and forward fill -/

/-- `str(x) if x is not None else "NA"` (`loaders.py:107-108`, `:225-226`,
`:432-433`). -/
def orNA : Option String → String
  | some s => s
  | none => "NA"

/-- The per-file id prefix `f"{i}|{periodo}|{cnpj}|"` (`loaders.py:109`,
`:227`, `:434`). -/
def idLead (i : Nat) (periodo cnpj : Option String) : String :=
  natStr i ++ "|" ++ orNA periodo ++ "|" ++ orNA cnpj ++ "|"

/-- The composite id of the row at zero-based position `r` of file `i`:
`prefix_combined + zfill(str(r), 7)` (`loaders.py:110-111`, `:228-229`,
`:435-436`). -/
def mkId (i : Nat) (periodo cnpj : Option String) (r : Nat) : String :=
  idLead i periodo cnpj ++ zfill7 (natStr r)

/-- `Series.ffill()` with explicit carried last-valid value. -/
def ffillAux : List (Option α) → Option α → List (Option α)
  | [], _ => []
  | some v :: xs, _ => some v :: ffillAux xs (some v)
  | none :: xs, last => last :: ffillAux xs last

/-- `Series.ffill()`: each `none` entry becomes the nearest preceding
`some` entry (still `none` before the first one). -/
def ffillCol (l : List (Option α)) : List (Option α) := ffillAux l none

/-- The `id_pai` column: anchors are seeded with their own id
(`df.loc[df['1'].isin(parent_reg_codes), 'id_pai'] = df['id']`), then the
column is forward-filled (`loaders.py:122-123`, `:238-239`, `:443-444`). -/
def linkIdPai (codes : List String) (pairs : List (String × Row)) : List (Option String) :=
  ffillCol (pairs.map (fun p => if isAnchor codes p.2 then some p.1 else none))

/-! ## Output rows -/

/-- A row of a processed per-file Relation: the synthesized `id`, the
nullable `id_pai`, the family-specific metadata columns (in source order),
and the original positional columns.  The source drops the always-empty
leading column `'0'`; the model keeps the full parsed row in `fields`
(the dropped column holds no information used anywhere downstream). -/
structure OutRow where
  id : String
  id_pai : Option String
  meta : List (Option String)
  fields : Row
deriving DecidableEq, Repr

/-- Zip the four per-row column lists into output rows (the model of the
columnar `df.insert(0, ...)` calls). -/
def assembleRows : List String → List (Option String) → List (List (Option String)) → List Row → List OutRow
  | i :: is, p :: ps, m :: ms, r :: rs => ⟨i, p, m, r⟩ :: assembleRows is ps ms rs
  | _, _, _, _ => []

/-! ## SPED Contribuições per-file processing (`loaders.py:87-126`) -/

/-- Header constants of a Contribuições file: `data_efd = df.loc[0,'7'][2:]`
and `cnpj_header = df.loc[0,'9']`, `None` when the field is `NaN`
(`loaders.py:99-100`). -/
def contribHeader (rows : List Row) : Option String × Option String :=
  match rows with
  | [] => (none, none)
  | r0 :: _ => ((r0.getD 7 none).map (fun s => s.drop 2), r0.getD 9 none)

/-- The `cnpj` column seed of one Contribuições row (`loaders.py:118-120`):
block-opening registers take the header CNPJ, `0140` takes its own column
`'4'`, establishment registers take their own column `'2'`. -/
def cnpjSeedContrib (cnpjHeader : Option String) (r : Row) : Option String :=
  match recType r with
  | none => none
  | some t =>
    if ["0000", "C001", "D001", "M001", "1001"].contains t then cnpjHeader
    else if t = "0140" then r.getD 4 none
    else if ["A010", "C010", "D010", "F010", "I010", "P010"].contains t then r.getD 2 none
    else none

/-- Per-file Contribuições processing after parsing: sentinel cut, header
extraction, id generation, `cnpj` seeding + ffill, `id_pai` linkage
(`loaders.py:87-124`).  Metadata columns: `[periodo, cnpj]`. -/
def processContribParsed (i : Nat) (rows0 : List Row) : List OutRow :=
  let rows := cutSentinel "9999" rows0
  if rows.isEmpty then []
  else
    let hdr := contribHeader rows
    let ids := (List.range rows.length).map (mkId i hdr.1 hdr.2)
    let idPais := linkIdPai parentRegContrib (ids.zip rows)
    let cnpjCol := ffillCol (rows.map (cnpjSeedContrib hdr.2))
    let metas := (cnpjCol.map (fun c => [hdr.1, c]))
    assembleRows ids idPais metas rows

/-! ## SPED Fiscal per-file processing (`loaders.py:208-242`) -/

/-- Header constants of a Fiscal file (`loaders.py:215-218`):
`data_efd = df.loc[0,'4'][2:]`, `cnpj_estab = df.loc[0,'7']`,
`ie_estab = df.loc[0,'10']`, `uf_estab = df.loc[0,'9']`. -/
def fiscalHeader (rows : List Row) : Option String × Option String × Option String × Option String :=
  match rows with
  | [] => (none, none, none, none)
  | r0 :: _ =>
    ((r0.getD 4 none).map (fun s => s.drop 2), r0.getD 7 none, r0.getD 10 none, r0.getD 9 none)

/-- Per-file Fiscal processing after parsing: no row-level sentinel cut
(only the line-level pre-scan exists for this family), header extraction,
id generation, constant metadata columns with `cnpj_estab` forward-filled,
`id_pai` linkage (`loaders.py:208-242`).  Metadata columns:
`[periodo, cnpj_estab, ie_estab, uf_estab]`. -/
def processFiscalParsed (i : Nat) (rows : List Row) : List OutRow :=
  if rows.isEmpty then []
  else
    let hdr := fiscalHeader rows
    let periodo := hdr.1
    let cnpjE := hdr.2.1
    let ieE := hdr.2.2.1
    let ufE := hdr.2.2.2
    let ids := (List.range rows.length).map (mkId i periodo cnpjE)
    let idPais := linkIdPai parentRegFiscal (ids.zip rows)
    let cnpjCol := ffillCol (rows.map (fun _ => cnpjE))
    let metas := cnpjCol.map (fun c => [periodo, c, ieE, ufE])
    assembleRows ids idPais metas rows

/-! ## ECD section-window filter (`loaders.py:313-367`) -/

/-- The window filter's per-file mutable state (`in_skip`, `after_resume`,
`loaders.py:314-315`). -/
structure WState where
  inSkip : Bool
  afterResume : Bool
deriving DecidableEq, Repr

/-- Initial window state for a file. -/
def wInit : WState := ⟨false, false⟩

/-- `codes.eq('I200')` on one row. -/
def is200 (r : Row) : Bool := isType "I200" r

/-- `codes.eq('I350')` on one row. -/
def is350 (r : Row) : Bool := isType "I350" r

/-- One chunk transition of the ECD section-window filter
(`loaders.py:317-367`), returning the next state and the kept slice of the
chunk.  `iloc[:first200]` is `take (findIdx is200 c)`, `iloc[first350:]`
is `drop (findIdx is350 c)`. -/
def ecdStep (st : WState) (c : List Row) : WState × List Row :=
  if st.afterResume then (st, c)
  else if st.inSkip then
    if c.any is350 then (⟨false, true⟩, c.drop (c.findIdx is350))
    else (st, [])
  else
    match c.any is200, c.any is350 with
    | false, false => (st, c)
    | true, false => (⟨true, st.afterResume⟩, c.take (c.findIdx is200))
    | false, true => (⟨st.inSkip, true⟩, c)
    | true, true =>
      if c.findIdx is200 < c.findIdx is350 then
        (⟨false, true⟩, c.take (c.findIdx is200) ++ c.drop (c.findIdx is350))
      else (⟨false, true⟩, c)

/-- Fold the window filter over the chunk sequence, concatenating the kept
slices (the `dfs.append(...)`/`pd.concat(dfs)` of `loaders.py:313-411`). -/
def runWindow (st : WState) : List (List Row) → List Row
  | [] => []
  | c :: cs => (ecdStep st c).2 ++ runWindow (ecdStep st c).1 cs

/-- Chunk-free description of the window filter on the whole row sequence:
with `i` the position of the first `I200` and `j` of the first `I350`,
the filter removes `[i, j)` when `i < j`, removes everything from `i`
when no `I350` exists, and keeps everything otherwise.  This is also a
direct transcription of the whole-file fallback logic
(`loaders.py:393-408`). -/
def ecdWindowSpec (rows : List Row) : List Row :=
  if rows.any is200 then
    if rows.any is350 then
      if rows.findIdx is200 < rows.findIdx is350 then
        rows.take (rows.findIdx is200) ++ rows.drop (rows.findIdx is350)
      else rows
    else rows.take (rows.findIdx is200)
  else rows

/-- Cut a list into consecutive chunks of `n` (fuel-driven on the length;
model of `pd.read_csv(..., chunksize=n)`). -/
def chunksOfAux (n : Nat) : Nat → List α → List (List α)
  | 0, _ => []
  | _ + 1, [] => []
  | fuel + 1, x :: xs => (x :: xs).take n :: chunksOfAux n fuel ((x :: xs).drop n)

/-- The reader's chunk partition: consecutive chunks of `n` rows. -/
def chunksOf (n : Nat) (l : List α) : List (List α) := chunksOfAux n l.length l

/-! ## ECD per-file processing (`loaders.py:255-446`) -/

/-- Header constants of an ECD file (`loaders.py:423-424`):
`ano_ecd = df.loc[0,'3'][4:]`, `cnpj = df.loc[0,'6']`. -/
def ecdHeader (rows : List Row) : Option String × Option String :=
  match rows with
  | [] => (none, none)
  | r0 :: _ => ((r0.getD 3 none).map (fun s => s.drop 4), r0.getD 6 none)

/-- ECD linkage stage (`loaders.py:419-445`): header extraction, id
generation, constant metadata columns `[ano, cnpj]` (neither is
forward-filled for this family), `id_pai` linkage.  Applied to the rows
remaining after the window filter and the `I990` sentinel cut. -/
def ecdLinkStage (i : Nat) (rows : List Row) : List OutRow :=
  if rows.isEmpty then []
  else
    let hdr := ecdHeader rows
    let ids := (List.range rows.length).map (mkId i hdr.1 hdr.2)
    let idPais := linkIdPai parentRegEcd (ids.zip rows)
    let metas := rows.map (fun _ => [hdr.1, hdr.2])
    assembleRows ids idPais metas rows

/-! ## Input files and batch errors -/

/-- One uploaded file: its decoded text lines, plus flags abstracting
whether each external decoding tier raises a structural parse error on it
(`engine="c"` attempt, `engine="python"` attempt, and — for the ECD family
only — the whole-file raw-text fallback of `loaders.py:368-409`).  When a
tier succeeds, the rows it produces are the pipe-split fields of the lines
it was given. -/
structure InputFile where
  lines : List String
  cFails : Bool := false
  pyFails : Bool := false
  ecdFallbackFails : Bool := false
deriving DecidableEq, Repr

/-- Batch-level outcomes.  `noFiles` and `noValidInput` are the user-facing
`st.error` + `st.stop` conditions; `parseFailure` is an uncaught decoder
exception escaping the loader; `concatNoObjects` is the uncaught
`ValueError: No objects to concatenate` raised by `pd.concat([])`. -/
inductive LoadError where
  | noFiles
  | noValidInput
  | parseFailure
  | concatNoObjects
deriving DecidableEq, Repr

/-- The parse tiers of `load_and_process_data` (`loaders.py:52-84`): the C
engine attempt, falling back to the Python engine on
`(ParserError, ValueError)`; a Python-engine failure is uncaught and
propagates.  Both successful tiers parse the pre-scanned content. -/
def contribParse (f : InputFile) : Except LoadError (List Row) :=
  if f.cFails then
    if f.pyFails then .error .parseFailure
    else .ok (parseRows columnCountContrib (preScan f.lines))
  else .ok (parseRows columnCountContrib (preScan f.lines))

/-- `load_and_process_data`'s per-file loop (`loaders.py:26-126`), carrying
the `enumerate` index: each file is parsed, processed, and its per-file
Relation appended; files whose Relation is empty are skipped but still
consume their file index. -/
def contribLoadAux (i : Nat) : List InputFile → Except LoadError (List OutRow)
  | [] => .ok []
  | f :: fs =>
    match contribParse f with
    | .error e => .error e
    | .ok rows =>
      match contribLoadAux (i + 1) fs with
      | .error e => .error e
      | .ok rest => .ok (processContribParsed i rows ++ rest)

/-- `load_and_process_data` (`loaders.py:12-137`): SPED Contribuições batch
ingestion.  An empty argument list is the `st.error`/`st.stop` at
`loaders.py:14-16`; an all-empty consolidation is the one at
`loaders.py:129-131`. -/
def load_and_process_data (files : List InputFile) : Except LoadError (List OutRow) :=
  if files.isEmpty then .error .noFiles
  else
    match contribLoadAux 0 files with
    | .error e => .error e
    | .ok all => if all.isEmpty then .error .noValidInput else .ok all

/-- The parse tiers of `load_and_process_sped_fiscal`
(`loaders.py:177-207`): C engine, falling back to the Python engine on
`ParserError` only; a Python-engine failure is uncaught. -/
def fiscalParse (f : InputFile) : Except LoadError (List Row) :=
  if f.cFails then
    if f.pyFails then .error .parseFailure
    else .ok (parseRows columnCountFiscal (preScan f.lines))
  else .ok (parseRows columnCountFiscal (preScan f.lines))

/-- `load_and_process_sped_fiscal`'s per-file loop (`loaders.py:152-242`). -/
def fiscalLoadAux (i : Nat) : List InputFile → Except LoadError (List OutRow)
  | [] => .ok []
  | f :: fs =>
    match fiscalParse f with
    | .error e => .error e
    | .ok rows =>
      match fiscalLoadAux (i + 1) fs with
      | .error e => .error e
      | .ok rest => .ok (processFiscalParsed i rows ++ rest)

/-- Keep-last deduplication on a key: an element is kept iff no later
element shares its key (model of
`df.drop_duplicates(subset=["id"], keep="last")`, order-preserving). -/
def dedupKeepLastBy (key : α → β) [DecidableEq β] : List α → List α
  | [] => []
  | x :: xs =>
    if xs.any (fun y => key y = key x) then dedupKeepLastBy key xs
    else x :: dedupKeepLastBy key xs

/-- `load_and_process_sped_fiscal` (`loaders.py:141-252`): SPED Fiscal
batch ingestion.  Note there is no all-empty guard for this family:
`pd.concat(dfs)` at `loaders.py:244` raises an uncaught `ValueError` when
every file produced zero rows (`concatNoObjects`); otherwise the
concatenation is deduplicated on `id` keeping the last occurrence
(`loaders.py:245-246`). -/
def load_and_process_sped_fiscal (files : List InputFile) : Except LoadError (List OutRow) :=
  if files.isEmpty then .error .noFiles
  else
    match fiscalLoadAux 0 files with
    | .error e => .error e
    | .ok all =>
      if all.isEmpty then .error .concatNoObjects
      else .ok (dedupKeepLastBy OutRow.id all)

/-- `_process_single_ecd_file` (`loaders.py:255-446`).  Chunked path
(either engine succeeds): pre-scan at `|9999|`, parse, window-filter the
`chunksize=200_000` chunks, cut at the first `I990` row, link.  Whole-file
fallback path (both chunked tiers fail, `loaders.py:368-409`): re-read the
original lines trimmed at the first `|I990|`-prefixed line, parse, apply
the chunk-free window logic, then the same `I990` cut and linkage.  A
fallback-tier failure propagates uncaught. -/
def process_single_ecd_file (i : Nat) (f : InputFile) : Except LoadError (List OutRow) :=
  if f.cFails && f.pyFails then
    if f.ecdFallbackFails then .error .parseFailure
    else
      let rows := parseRows columnCountEcd (takeThroughFirst (strStarts "|I990|") f.lines)
      .ok (ecdLinkStage i (cutSentinel "I990" (ecdWindowSpec rows)))
  else
    let rows := parseRows columnCountEcd (preScan f.lines)
    .ok (ecdLinkStage i (cutSentinel "I990" (runWindow wInit (chunksOf chunkSize rows))))

/-- `load_and_process_ecd`'s per-file loop (`loaders.py:464-468`): nonempty
per-file Relations are appended; the `enumerate` index advances for every
file. -/
def ecdLoadAux (i : Nat) : List InputFile → Except LoadError (List OutRow)
  | [] => .ok []
  | f :: fs =>
    match process_single_ecd_file i f with
    | .error e => .error e
    | .ok out =>
      match ecdLoadAux (i + 1) fs with
      | .error e => .error e
      | .ok rest => .ok (out ++ rest)

/-- `load_and_process_ecd` (`loaders.py:450-480`): ECD batch ingestion with
the user-facing all-empty guard of `loaders.py:470-472`. -/
def load_and_process_ecd (files : List InputFile) : Except LoadError (List OutRow) :=
  if files.isEmpty then .error .noFiles
  else
    match ecdLoadAux 0 files with
    | .error e => .error e
    | .ok all => if all.isEmpty then .error .noValidInput else .ok all

/-! ## Proof-side helper definitions -/

/-- The last `some` value of a seed list, starting from `init` (used to
characterize forward fill pointwise). -/
def lastSomeD (init : Option α) (l : List (Option α)) : Option α :=
  l.foldl (fun a x => match x with | some v => some v | none => a) init

/-- The row list of a successful load (empty on error); lets closed
witness statements name a loader's output without repeating it. -/
def resultRows : Except LoadError (List OutRow) → List OutRow
  | .ok l => l
  | .error _ => []

/-! ## Concrete input files for witnesses and counterexamples -/

/-- A well-formed two-record SPED Contribuições file (register `0000` with
period field `'7'` and CNPJ field `'9'`, then one `A100` anchor row). -/
def wContribA : InputFile :=
  { lines := ["|0000|a|b|c|d|e|f|xx2301|g|55443322", "|A100|p|q"] }

/-- A well-formed three-record SPED Fiscal file (register `0000` with
period field `'4'`, CNPJ field `'7'`, UF field `'9'`, IE field `'10'`). -/
def wFiscalA : InputFile :=
  { lines := ["|0000|a|b|xx2301|c|d|11222333000144|e|SP|ISENTO", "|C100|p", "|C170|q"] }

/-- A well-formed ECD file: `0000` header (year field `'3'`, CNPJ field
`'6'`), an `I200`/`I350`-delimited bulk section, an `I990` sentinel row and
a `|9999|` terminator followed by trailer junk. -/
def wEcdA : InputFile :=
  { lines := ["|0000|LECD|xxxx2023|b|c|66554433000155", "|I150|h", "|I200|x", "|I250|y",
              "|I350|z", "|I990|q", "|9999|1", "trailerjunk"] }

/-- An ECD file whose `I200` bulk section never closes: the `I990` sentinel
row itself falls inside the unterminated window. -/
def cexEcdUnclosed : InputFile :=
  { lines := ["|0000|LECD|xxxx2023|b|c|66554433000155", "|I200|x", "|I250|y",
              "|I990|q", "|9999|1"] }

/-- A file none of whose lines survive parsing: its single line has more
pipe-separated fields than any family's column count. -/
def cexAllBad : InputFile :=
  { lines := [String.intercalate "|" (List.replicate 50 "z")] }

/-- A file that fails both decoding tiers. -/
def cexBothTiersFail : InputFile :=
  { lines := ["|0000|a|b|c|d|e|f|xx2301|g|55443322"], cFails := true, pyFails := true }

/-- A malformed line with more fields than the Contribuições column count
whose text happens to begin with the terminal-sentinel marker `|9999|`. -/
def cexBadSentinelLine : String :=
  "|9999|" ++ String.intercalate "|" (List.replicate 45 "w")

/-- A malformed line with more fields than the Contribuições column count
that does not begin with the sentinel marker. -/
def wLongLine : String := String.intercalate "|" (List.replicate 45 "w")

/-! ## Lemmas: decimal digits and identifier injectivity -/

theorem decDigit_ne_pipe (d : Nat) : decDigit d ≠ '|' := by
  unfold decDigit
  repeat' split
  all_goals decide

theorem natDigitsAux_ne_pipe (fuel n : Nat) : ∀ c ∈ natDigitsAux fuel n, c ≠ '|' := by
  induction fuel generalizing n with
  | zero => intro c hc; simp [natDigitsAux] at hc
  | succ fuel ih =>
    intro c hc
    unfold natDigitsAux at hc
    split at hc
    · simp only [List.mem_singleton] at hc
      exact hc ▸ decDigit_ne_pipe n
    · rcases List.mem_append.mp hc with h | h
      · exact ih (n / 10) c h
      · simp only [List.mem_singleton] at h
        exact h ▸ decDigit_ne_pipe (n % 10)

theorem natDigits_ne_pipe (n : Nat) : ∀ c ∈ natDigits n, c ≠ '|' :=
  natDigitsAux_ne_pipe (n + 1) n

theorem digitVal_decDigit : ∀ d < 10, digitVal (decDigit d) = d := by decide

theorem numVal_natDigitsAux (fuel n : Nat) (h : n < fuel) :
    numVal (natDigitsAux fuel n) = n := by
  induction fuel generalizing n with
  | zero => omega
  | succ fuel ih =>
    unfold natDigitsAux
    split
    · rename_i h10
      simpa [numVal, List.foldl] using digitVal_decDigit n h10
    · rename_i h10
      push_neg at h10
      have hdiv : n / 10 < fuel := by
        have : n / 10 < n := Nat.div_lt_self (by omega) (by omega)
        omega
      have hmod : n % 10 < 10 := Nat.mod_lt _ (by omega)
      unfold numVal
      rw [List.foldl_append]
      show 10 * (numVal (natDigitsAux fuel (n / 10))) + digitVal (decDigit (n % 10)) = n
      rw [ih _ hdiv, digitVal_decDigit _ hmod]
      omega

theorem numVal_natDigits (n : Nat) : numVal (natDigits n) = n :=
  numVal_natDigitsAux (n + 1) n (Nat.lt_succ_self n)

theorem natDigits_inj {m n : Nat} (h : natDigits m = natDigits n) : m = n := by
  have : numVal (natDigits m) = numVal (natDigits n) := by rw [h]
  rwa [numVal_natDigits, numVal_natDigits] at this

theorem natStr_inj {m n : Nat} (h : natStr m = natStr n) : m = n := by
  apply natDigits_inj
  have hd : (String.mk (natDigits m)).data = (String.mk (natDigits n)).data :=
    congrArg String.data h
  exact hd

theorem numVal_replicate_zero (k : Nat) (l : List Char) :
    numVal (List.replicate k '0' ++ l) = numVal l := by
  unfold numVal
  rw [List.foldl_append]
  congr 1
  induction k with
  | zero => rfl
  | succ k ih => simpa [List.replicate_succ, digitVal] using ih

theorem zfill7_natStr_inj {m n : Nat} (h : zfill7 (natStr m) = zfill7 (natStr n)) : m = n := by
  have hd : (zfill7 (natStr m)).data = (zfill7 (natStr n)).data := congrArg String.data h
  simp only [zfill7, natStr] at hd
  change List.replicate _ '0' ++ natDigits m = List.replicate _ '0' ++ natDigits n at hd
  have : numVal (List.replicate (7 - (String.mk (natDigits m)).length) '0' ++ natDigits m)
       = numVal (List.replicate (7 - (String.mk (natDigits n)).length) '0' ++ natDigits n) := by
    rw [hd]
  rw [numVal_replicate_zero, numVal_replicate_zero, numVal_natDigits, numVal_natDigits] at this
  exact this

theorem pipe_split_unique :
    ∀ (a b r s : List Char), (∀ c ∈ a, c ≠ '|') → (∀ c ∈ b, c ≠ '|') →
      a ++ '|' :: r = b ++ '|' :: s → a = b ∧ r = s := by
  intro a
  induction a with
  | nil =>
    intro b r s _ hb h
    cases b with
    | nil => simpa using h
    | cons x xs =>
      simp only [List.nil_append, List.cons_append, List.cons.injEq] at h
      exact absurd h.1.symm (hb x (by simp))
  | cons x xs ih =>
    intro b r s ha hb h
    cases b with
    | nil =>
      simp only [List.cons_append, List.nil_append, List.cons.injEq] at h
      exact absurd h.1 (ha x (by simp))
    | cons y ys =>
      simp only [List.cons_append, List.cons.injEq] at h
      obtain ⟨rfl, h2⟩ := h
      obtain ⟨h3, h4⟩ := ih ys r s (fun c hc => ha c (by simp [hc]))
        (fun c hc => hb c (by simp [hc])) h2
      exact ⟨by rw [h3], h4⟩

theorem mkId_data (i : Nat) (p c : Option String) (r : Nat) :
    (mkId i p c r).data =
      natDigits i ++ '|' :: ((orNA p).data ++ '|' :: ((orNA c).data ++ '|' ::
        (zfill7 (natStr r)).data)) := by
  simp [mkId, idLead, String.data_append, natStr]

theorem mkId_file_inj {i j : Nat} {p c p' c' : Option String} {r s : Nat}
    (h : mkId i p c r = mkId j p' c' s) : i = j := by
  have hd := congrArg String.data h
  rw [mkId_data, mkId_data] at hd
  exact natDigits_inj (pipe_split_unique _ _ _ _ (natDigits_ne_pipe i) (natDigits_ne_pipe j) hd).1

theorem mkId_row_inj {i : Nat} {p c : Option String} {r s : Nat}
    (h : mkId i p c r = mkId i p c s) : r = s := by
  have hd := congrArg String.data h
  simp only [mkId, String.data_append] at hd
  exact zfill7_natStr_inj (by
    apply congrArg String.mk (List.append_cancel_left hd))

/-! ## Lemmas: takeThroughFirst -/

/-- Bridge to the source's `argmax`-based formulation: `takeThroughFirst`
is `take (findIdx p l + 1)` when a match exists, the whole list otherwise. -/
theorem takeThroughFirst_eq (p : α → Bool) (l : List α) :
    takeThroughFirst p l = if l.any p then l.take (l.findIdx p + 1) else l := by
  induction l with
  | nil => rfl
  | cons x xs ih =>
    by_cases hx : p x
    · simp [takeThroughFirst, hx, List.findIdx_cons]
    · simp only [takeThroughFirst, hx, if_false, List.any_cons, Bool.false_or,
        List.findIdx_cons, cond_false, ih]
      by_cases hxs : xs.any p <;> simp [hxs]

theorem takeThroughFirst_append_of_any {p : α → Bool} {l₁ : List α} (l₂ : List α)
    (h : l₁.any p = true) : takeThroughFirst p (l₁ ++ l₂) = takeThroughFirst p l₁ := by
  induction l₁ with
  | nil => simp at h
  | cons x xs ih =>
    by_cases hx : p x
    · simp [takeThroughFirst, hx]
    · simp only [List.any_cons, hx, Bool.false_or] at h
      simp [takeThroughFirst, hx, ih h]

/-- Inserting an element that the cut predicate skips and the parser drops
leaves the parsed output unchanged. -/
theorem takeThroughFirst_insert_skipped {p : α → Bool} {y : α} (hy : p y = false) :
    ∀ (l₁ l₂ : List α) (f : α → Option β), f y = none →
      (takeThroughFirst p (l₁ ++ y :: l₂)).filterMap f =
      (takeThroughFirst p (l₁ ++ l₂)).filterMap f := by
  intro l₁
  induction l₁ with
  | nil =>
    intro l₂ f hfy
    simp [takeThroughFirst, hy, List.filterMap_cons, hfy]
  | cons x xs ih =>
    intro l₂ f hfy
    by_cases hx : p x
    · simp [takeThroughFirst, hx]
    · simp [takeThroughFirst, hx, List.filterMap_cons, ih l₂ f hfy]

/-! ## Lemmas: forward fill -/

theorem ffillAux_length (l : List (Option α)) (init : Option α) :
    (ffillAux l init).length = l.length := by
  induction l generalizing init with
  | nil => rfl
  | cons x xs ih => cases x <;> simp [ffillAux, ih]

theorem ffillCol_length (l : List (Option α)) : (ffillCol l).length = l.length :=
  ffillAux_length l none

theorem lastSomeD_append (init : Option α) (l₁ l₂ : List (Option α)) :
    lastSomeD init (l₁ ++ l₂) = lastSomeD (lastSomeD init l₁) l₂ :=
  List.foldl_append ..

/-- Pointwise characterization of forward fill: position `k` of the filled
column holds the last `some` among the first `k+1` seeds (falling back to
the carried value). -/
theorem ffillAux_getD (l : List (Option α)) (init : Option α) (k : Nat) (hk : k < l.length) :
    (ffillAux l init).getD k none = lastSomeD init (l.take (k + 1)) := by
  induction l generalizing init k with
  | nil => simp at hk
  | cons x xs ih =>
    cases k with
    | zero => cases x <;> simp [ffillAux, lastSomeD, List.getD]
    | succ k =>
      have hk' : k < xs.length := by simpa using hk
      cases x with
      | some v =>
        simpa [ffillAux, List.getD_cons_succ, List.take_cons, lastSomeD] using ih (some v) k hk'
      | none =>
        simpa [ffillAux, List.getD_cons_succ, List.take_cons, lastSomeD] using ih init k hk'

/-! ## Lemmas: assembled output rows -/

theorem assembleRows_map_id :
    ∀ (is : List String) (ps : List (Option String)) (ms : List (List (Option String)))
      (rs : List Row), is.length = ps.length → is.length = ms.length → is.length = rs.length →
      (assembleRows is ps ms rs).map OutRow.id = is := by
  intro is
  induction is with
  | nil => intro ps ms rs _ _ _; simp [assembleRows]
  | cons i is ih =>
    intro ps ms rs hp hm hr
    cases ps with | nil => simp at hp | cons p ps =>
    cases ms with | nil => simp at hm | cons m ms =>
    cases rs with | nil => simp at hr | cons r rs =>
    simp only [assembleRows, List.map_cons, List.cons.injEq, true_and]
    exact ih ps ms rs (by simpa using hp) (by simpa using hm) (by simpa using hr)

theorem assembleRows_map_id_pai :
    ∀ (is : List String) (ps : List (Option String)) (ms : List (List (Option String)))
      (rs : List Row), is.length = ps.length → is.length = ms.length → is.length = rs.length →
      (assembleRows is ps ms rs).map OutRow.id_pai = ps := by
  intro is
  induction is with
  | nil =>
    intro ps ms rs hp _ _
    cases ps with | nil => simp [assembleRows] | cons p ps => simp at hp
  | cons i is ih =>
    intro ps ms rs hp hm hr
    cases ps with | nil => simp at hp | cons p ps =>
    cases ms with | nil => simp at hm | cons m ms =>
    cases rs with | nil => simp at hr | cons r rs =>
    simp only [assembleRows, List.map_cons, List.cons.injEq, true_and]
    exact ih ps ms rs (by simpa using hp) (by simpa using hm) (by simpa using hr)

theorem assembleRows_map_fields :
    ∀ (is : List String) (ps : List (Option String)) (ms : List (List (Option String)))
      (rs : List Row), is.length = ps.length → is.length = ms.length → is.length = rs.length →
      (assembleRows is ps ms rs).map OutRow.fields = rs := by
  intro is
  induction is with
  | nil =>
    intro ps ms rs _ _ hr
    cases rs with | nil => simp [assembleRows] | cons r rs => simp at hr
  | cons i is ih =>
    intro ps ms rs hp hm hr
    cases ps with | nil => simp at hp | cons p ps =>
    cases ms with | nil => simp at hm | cons m ms =>
    cases rs with | nil => simp at hr | cons r rs =>
    simp only [assembleRows, List.map_cons, List.cons.injEq, true_and]
    exact ih ps ms rs (by simpa using hp) (by simpa using hm) (by simpa using hr)

/-! ## Lemmas: keep-last deduplication -/

theorem dedupKeepLastBy_of_nodup {key : α → β} [DecidableEq β] :
    ∀ {l : List α}, (l.map key).Nodup → dedupKeepLastBy key l = l := by
  intro l
  induction l with
  | nil => intro _; rfl
  | cons x xs ih =>
    intro h
    rw [List.map_cons, List.nodup_cons] at h
    have hnot : xs.any (fun y => key y = key x) = false := by
      rw [List.any_eq_false]
      intro y hy
      simp only [decide_eq_true_eq]
      intro hk
      exact h.1 (hk ▸ List.mem_map_of_mem key hy)
    simp [dedupKeepLastBy, hnot, ih h.2]

/-! ## Lemmas: findIdx over append -/

theorem findIdx_append_of_any {p : α → Bool} {l₁ : List α} (l₂ : List α)
    (h : l₁.any p = true) : (l₁ ++ l₂).findIdx p = l₁.findIdx p := by
  induction l₁ with
  | nil => simp at h
  | cons x xs ih =>
    by_cases hx : p x
    · simp [List.findIdx_cons, hx]
    · simp only [List.any_cons, hx, Bool.false_or] at h
      simp [List.findIdx_cons, hx, ih h]

theorem findIdx_append_of_not_any {p : α → Bool} {l₁ : List α} (l₂ : List α)
    (h : l₁.any p = false) : (l₁ ++ l₂).findIdx p = l₁.length + l₂.findIdx p := by
  induction l₁ with
  | nil => simp
  | cons x xs ih =>
    simp only [List.any_cons, Bool.or_eq_false_iff] at h
    simp only [List.cons_append, List.findIdx_cons, h.1, cond_false, ih h.2,
      List.length_cons]
    omega

theorem findIdx_lt_length_of_any {p : α → Bool} {l : List α} (h : l.any p = true) :
    l.findIdx p < l.length := by
  induction l with
  | nil => simp at h
  | cons x xs ih =>
    by_cases hx : p x
    · simp [List.findIdx_cons, hx]
    · simp only [List.any_cons, hx, Bool.false_or] at h
      simp only [List.findIdx_cons, hx, cond_false, List.length_cons]
      exact Nat.succ_lt_succ (ih h)

theorem take_append_of_add (l₁ l₂ : List α) (k : Nat) :
    (l₁ ++ l₂).take (l₁.length + k) = l₁ ++ l₂.take k := by
  induction l₁ with
  | nil => simp
  | cons x xs ih => simpa [List.take_cons, Nat.succ_add] using ih

theorem drop_append_of_add (l₁ l₂ : List α) (k : Nat) :
    (l₁ ++ l₂).drop (l₁.length + k) = l₂.drop k := by
  induction l₁ with
  | nil => simp
  | cons x xs ih => simp [Nat.succ_add, ih]

/-! ## Lemmas: the ECD section-window state machine -/

theorem runWindow_afterResume (b : Bool) (cs : List (List Row)) :
    runWindow ⟨b, true⟩ cs = cs.flatten := by
  induction cs with
  | nil => rfl
  | cons c cs ih => simp [runWindow, ecdStep, ih]

theorem runWindow_inSkip (cs : List (List Row)) :
    runWindow ⟨true, false⟩ cs =
      if cs.flatten.any is350 then cs.flatten.drop (cs.flatten.findIdx is350) else [] := by
  induction cs with
  | nil => simp [runWindow]
  | cons c cs ih =>
    cases h350 : c.any is350 with
    | true =>
      have hlt := findIdx_lt_length_of_any h350
      have lhs : runWindow ⟨true, false⟩ (c :: cs) = c.drop (c.findIdx is350) ++ cs.flatten := by
        simp [runWindow, ecdStep, h350, runWindow_afterResume]
      rw [lhs, List.flatten_cons, List.any_append, h350, Bool.true_or, if_pos rfl,
        findIdx_append_of_any _ h350, List.drop_append_of_le_length (Nat.le_of_lt hlt)]
    | false =>
      have lhs : runWindow ⟨true, false⟩ (c :: cs) = runWindow ⟨true, false⟩ cs := by
        simp [runWindow, ecdStep, h350]
      rw [lhs, ih, List.flatten_cons, List.any_append, h350, Bool.false_or]
      by_cases hrest : cs.flatten.any is350
      · rw [if_pos hrest, if_pos hrest, findIdx_append_of_not_any _ h350, drop_append_of_add]
      · rw [if_neg (by simp [hrest]), if_neg (by simp [hrest])]

/-! ## Lemmas: the chunk-free window semantics over append -/

theorem spec_append_nomark {c F : List Row} (h2 : c.any is200 = false)
    (h3 : c.any is350 = false) : ecdWindowSpec (c ++ F) = c ++ ecdWindowSpec F := by
  unfold ecdWindowSpec
  simp only [List.any_append, h2, h3, Bool.false_or]
  by_cases hF2 : F.any is200
  · rw [if_pos hF2, if_pos hF2]
    by_cases hF3 : F.any is350
    · rw [if_pos hF3, if_pos hF3, findIdx_append_of_not_any _ h2,
        findIdx_append_of_not_any _ h3]
      by_cases hij : F.findIdx is200 < F.findIdx is350
      · rw [if_pos hij, if_pos (by omega), take_append_of_add, drop_append_of_add,
          List.append_assoc]
      · rw [if_neg hij, if_neg (by omega)]
    · rw [if_neg hF3, if_neg hF3, findIdx_append_of_not_any _ h2, take_append_of_add]
  · rw [if_neg hF2, if_neg hF2]

theorem spec_append_only200 {c F : List Row} (h2 : c.any is200 = true)
    (h3 : c.any is350 = false) :
    ecdWindowSpec (c ++ F) =
      if F.any is350 then c.take (c.findIdx is200) ++ F.drop (F.findIdx is350)
      else c.take (c.findIdx is200) := by
  have hi := findIdx_lt_length_of_any h2
  unfold ecdWindowSpec
  simp only [List.any_append, h2, h3, Bool.true_or, Bool.false_or]
  rw [if_pos trivial]
  by_cases hF3 : F.any is350
  · rw [if_pos hF3, findIdx_append_of_any _ h2, findIdx_append_of_not_any _ h3,
      if_pos (by omega : c.findIdx is200 < c.length + F.findIdx is350),
      List.take_append_of_le_length (Nat.le_of_lt hi), drop_append_of_add, if_pos hF3]
  · rw [if_neg hF3, findIdx_append_of_any _ h2,
      List.take_append_of_le_length (Nat.le_of_lt hi), if_neg hF3]

theorem spec_append_only350 {c F : List Row} (h2 : c.any is200 = false)
    (h3 : c.any is350 = true) : ecdWindowSpec (c ++ F) = c ++ F := by
  have hj := findIdx_lt_length_of_any h3
  unfold ecdWindowSpec
  simp only [List.any_append, h2, h3, Bool.true_or, Bool.false_or]
  by_cases hF2 : F.any is200
  · rw [if_pos hF2, if_pos trivial, findIdx_append_of_not_any _ h2, findIdx_append_of_any _ h3,
      if_neg (by omega : ¬ c.length + F.findIdx is200 < c.findIdx is350)]
  · rw [if_neg hF2]

theorem spec_append_both {c F : List Row} (h2 : c.any is200 = true)
    (h3 : c.any is350 = true) :
    ecdWindowSpec (c ++ F) =
      if c.findIdx is200 < c.findIdx is350 then
        c.take (c.findIdx is200) ++ (c.drop (c.findIdx is350) ++ F)
      else c ++ F := by
  have hi := findIdx_lt_length_of_any h2
  have hj := findIdx_lt_length_of_any h3
  unfold ecdWindowSpec
  simp only [List.any_append, h2, h3, Bool.true_or]
  rw [if_pos trivial, if_pos trivial, findIdx_append_of_any _ h2, findIdx_append_of_any _ h3]
  by_cases hij : c.findIdx is200 < c.findIdx is350
  · rw [if_pos hij, if_pos hij, List.take_append_of_le_length (Nat.le_of_lt hi),
      List.drop_append_of_le_length (Nat.le_of_lt hj)]
  · rw [if_neg hij, if_neg hij]

/-- Chunk independence of the ECD section-window filter: folding the
stateful per-chunk filter over ANY chunk partition computes the chunk-free
window semantics of the concatenated rows. -/
theorem runWindow_spec (cs : List (List Row)) :
    runWindow wInit cs = ecdWindowSpec cs.flatten := by
  induction cs with
  | nil => simp [runWindow, ecdWindowSpec]
  | cons c cs ih =>
    rw [List.flatten_cons]
    cases h2 : c.any is200 with
    | false =>
      cases h3 : c.any is350 with
      | false =>
        have lhs : runWindow wInit (c :: cs) = c ++ runWindow wInit cs := by
          simp [runWindow, ecdStep, wInit, h2, h3]
        rw [lhs, ih, spec_append_nomark h2 h3]
      | true =>
        have lhs : runWindow wInit (c :: cs) = c ++ cs.flatten := by
          simp [runWindow, ecdStep, wInit, h2, h3, runWindow_afterResume]
        rw [lhs, spec_append_only350 h2 h3]
    | true =>
      cases h3 : c.any is350 with
      | false =>
        have lhs : runWindow wInit (c :: cs) =
            c.take (c.findIdx is200) ++ runWindow ⟨true, false⟩ cs := by
          simp [runWindow, ecdStep, wInit, h2, h3]
        rw [lhs, runWindow_inSkip, spec_append_only200 h2 h3]
        by_cases hF3 : cs.flatten.any is350
        · rw [if_pos hF3, if_pos hF3]
        · rw [if_neg hF3, if_neg hF3, List.append_nil]
      | true =>
        by_cases hij : c.findIdx is200 < c.findIdx is350
        · have lhs : runWindow wInit (c :: cs) =
              (c.take (c.findIdx is200) ++ c.drop (c.findIdx is350)) ++ cs.flatten := by
            simp [runWindow, ecdStep, wInit, h2, h3, hij, runWindow_afterResume]
          rw [lhs, spec_append_both h2 h3, if_pos hij, List.append_assoc]
        · have lhs : runWindow wInit (c :: cs) = c ++ cs.flatten := by
            simp [runWindow, ecdStep, wInit, h2, h3, hij, runWindow_afterResume]
          rw [lhs, spec_append_both h2 h3, if_neg hij]

/-- Chunking by any positive size partitions the list exactly. -/
theorem flatten_chunksOfAux (n : Nat) (hn : 0 < n) :
    ∀ (fuel : Nat) (l : List α), l.length ≤ fuel → (chunksOfAux n fuel l).flatten = l := by
  intro fuel
  induction fuel with
  | zero =>
    intro l hl
    have : l = [] := List.eq_nil_of_length_eq_zero (Nat.le_zero.mp hl)
    simp [this, chunksOfAux]
  | succ fuel ih =>
    intro l hl
    cases l with
    | nil => simp [chunksOfAux]
    | cons x xs =>
      have hdl : ((x :: xs).drop n).length ≤ fuel := by
        rw [List.length_drop]
        simp only [List.length_cons] at hl ⊢
        omega
      rw [chunksOfAux, List.flatten_cons, ih _ hdl]
      exact List.take_append_drop n (x :: xs)

theorem flatten_chunksOf (n : Nat) (hn : 0 < n) (l : List α) :
    (chunksOf n l).flatten = l :=
  flatten_chunksOfAux n hn l.length l (Nat.le_refl _)

/-! ## Lemmas: per-file id columns -/

theorem linkIdPai_length (codes : List String) (pairs : List (String × Row)) :
    (linkIdPai codes pairs).length = pairs.length := by
  simp [linkIdPai, ffillCol_length]

theorem processContribParsed_map_id (i : Nat) (rows0 : List Row) :
    (processContribParsed i rows0).map OutRow.id =
      (List.range (cutSentinel "9999" rows0).length).map
        (mkId i (contribHeader (cutSentinel "9999" rows0)).1
                (contribHeader (cutSentinel "9999" rows0)).2) := by
  unfold processContribParsed
  by_cases he : (cutSentinel "9999" rows0).isEmpty
  · rw [if_pos he]
    rw [List.isEmpty_iff] at he
    simp [he]
  · rw [if_neg he]
    apply assembleRows_map_id
    · rw [linkIdPai_length, List.length_zip, List.length_map, List.length_range]
      simp [Nat.min_self]
    · simp [ffillCol_length]
    · simp

theorem processFiscalParsed_map_id (i : Nat) (rows : List Row) :
    (processFiscalParsed i rows).map OutRow.id =
      (List.range rows.length).map (mkId i (fiscalHeader rows).1 (fiscalHeader rows).2.1) := by
  unfold processFiscalParsed
  by_cases he : rows.isEmpty
  · rw [if_pos he]
    rw [List.isEmpty_iff] at he
    simp [he]
  · rw [if_neg he]
    apply assembleRows_map_id
    · rw [linkIdPai_length, List.length_zip, List.length_map, List.length_range]
      simp [Nat.min_self]
    · simp [ffillCol_length]
    · simp

theorem ecdLinkStage_map_id (i : Nat) (rows : List Row) :
    (ecdLinkStage i rows).map OutRow.id =
      (List.range rows.length).map (mkId i (ecdHeader rows).1 (ecdHeader rows).2) := by
  unfold ecdLinkStage
  by_cases he : rows.isEmpty
  · rw [if_pos he]
    rw [List.isEmpty_iff] at he
    simp [he]
  · rw [if_neg he]
    apply assembleRows_map_id
    · rw [linkIdPai_length, List.length_zip, List.length_map, List.length_range]
      simp [Nat.min_self]
    · simp
    · simp

/-- Within one file, the generated id column has no duplicates (the
zero-padded row counter is injective). -/
theorem nodup_map_mkId (i : Nat) (p c : Option String) (n : Nat) :
    ((List.range n).map (mkId i p c)).Nodup :=
  (List.nodup_range n).map (fun _ _ h => mkId_row_inj h)

theorem mem_map_mkId {s : String} {i : Nat} {p c : Option String} {n : Nat}
    (h : s ∈ (List.range n).map (mkId i p c)) : ∃ r, s = mkId i p c r := by
  rcases List.mem_map.mp h with ⟨r, _, rfl⟩
  exact ⟨r, rfl⟩

/-! ## Lemmas: cross-file uniqueness of the consolidated id column -/

/-- Appending a block of file-`i` ids to a block of later-file ids keeps
the id column duplicate-free: the file-index component separates them. -/
theorem ids_nodup_append {A B : List OutRow} {i : Nat}
    (hA : (A.map OutRow.id).Nodup) (hB : (B.map OutRow.id).Nodup)
    (hAs : ∀ s ∈ A.map OutRow.id, ∃ p c r, s = mkId i p c r)
    (hBs : ∀ s ∈ B.map OutRow.id, ∃ j p c r, i + 1 ≤ j ∧ s = mkId j p c r) :
    (((A ++ B).map OutRow.id).Nodup) ∧
      ∀ s ∈ (A ++ B).map OutRow.id, ∃ j p c r, i ≤ j ∧ s = mkId j p c r := by
  rw [List.map_append]
  constructor
  · refine hA.append hB ?_
    intro s hsA hsB
    obtain ⟨p, c, r, rfl⟩ := hAs s hsA
    obtain ⟨j, p', c', r', hj, he⟩ := hBs _ hsB
    have := mkId_file_inj he
    omega
  · intro s hs
    rcases List.mem_append.mp hs with h | h
    · obtain ⟨p, c, r, rfl⟩ := hAs s h
      exact ⟨i, p, c, r, Nat.le_refl i, rfl⟩
    · obtain ⟨j, p, c, r, hj, rfl⟩ := hBs s h
      exact ⟨j, p, c, r, by omega, rfl⟩

theorem contribLoadAux_ids :
    ∀ (files : List InputFile) (i : Nat) (all : List OutRow),
      contribLoadAux i files = .ok all →
      (all.map OutRow.id).Nodup ∧
        ∀ s ∈ all.map OutRow.id, ∃ j p c r, i ≤ j ∧ s = mkId j p c r := by
  intro files
  induction files with
  | nil =>
    intro i all h
    cases h
    simp
  | cons f fs ih =>
    intro i all h
    unfold contribLoadAux at h
    cases hp : contribParse f with
    | error e => rw [hp] at h; cases h
    | ok rows =>
      rw [hp] at h
      cases hr : contribLoadAux (i + 1) fs with
      | error e => rw [hr] at h; cases h
      | ok rest =>
        rw [hr] at h
        cases h
        have hproc : ∀ s ∈ (processContribParsed i rows).map OutRow.id,
            ∃ p c r, s = mkId i p c r := by
          intro s hs
          rw [processContribParsed_map_id] at hs
          obtain ⟨r, rfl⟩ := mem_map_mkId hs
          exact ⟨_, _, r, rfl⟩
        have hprocN : ((processContribParsed i rows).map OutRow.id).Nodup := by
          rw [processContribParsed_map_id]
          exact nodup_map_mkId ..
        exact ids_nodup_append hprocN (ih (i + 1) rest hr).1 hproc (ih (i + 1) rest hr).2

theorem fiscalLoadAux_ids :
    ∀ (files : List InputFile) (i : Nat) (all : List OutRow),
      fiscalLoadAux i files = .ok all →
      (all.map OutRow.id).Nodup ∧
        ∀ s ∈ all.map OutRow.id, ∃ j p c r, i ≤ j ∧ s = mkId j p c r := by
  intro files
  induction files with
  | nil =>
    intro i all h
    cases h
    simp
  | cons f fs ih =>
    intro i all h
    unfold fiscalLoadAux at h
    cases hp : fiscalParse f with
    | error e => rw [hp] at h; cases h
    | ok rows =>
      rw [hp] at h
      cases hr : fiscalLoadAux (i + 1) fs with
      | error e => rw [hr] at h; cases h
      | ok rest =>
        rw [hr] at h
        cases h
        have hproc : ∀ s ∈ (processFiscalParsed i rows).map OutRow.id,
            ∃ p c r, s = mkId i p c r := by
          intro s hs
          rw [processFiscalParsed_map_id] at hs
          obtain ⟨r, rfl⟩ := mem_map_mkId hs
          exact ⟨_, _, r, rfl⟩
        have hprocN : ((processFiscalParsed i rows).map OutRow.id).Nodup := by
          rw [processFiscalParsed_map_id]
          exact nodup_map_mkId ..
        exact ids_nodup_append hprocN (ih (i + 1) rest hr).1 hproc (ih (i + 1) rest hr).2

theorem ecdLoadAux_ids :
    ∀ (files : List InputFile) (i : Nat) (all : List OutRow),
      ecdLoadAux i files = .ok all →
      (all.map OutRow.id).Nodup ∧
        ∀ s ∈ all.map OutRow.id, ∃ j p c r, i ≤ j ∧ s = mkId j p c r := by
  intro files
  induction files with
  | nil =>
    intro i all h
    cases h
    simp
  | cons f fs ih =>
    intro i all h
    unfold ecdLoadAux at h
    cases hp : process_single_ecd_file i f with
    | error e => rw [hp] at h; cases h
    | ok out =>
      rw [hp] at h
      cases hr : ecdLoadAux (i + 1) fs with
      | error e => rw [hr] at h; cases h
      | ok rest =>
        rw [hr] at h
        cases h
        have hout : (out.map OutRow.id).Nodup ∧
            ∀ s ∈ out.map OutRow.id, ∃ p c r, s = mkId i p c r := by
          unfold process_single_ecd_file at hp
          split at hp
          · split at hp
            · cases hp
            · cases hp
              constructor
              · rw [ecdLinkStage_map_id]; exact nodup_map_mkId ..
              · intro s hs
                rw [ecdLinkStage_map_id] at hs
                obtain ⟨r, rfl⟩ := mem_map_mkId hs
                exact ⟨_, _, r, rfl⟩
          · cases hp
            constructor
            · rw [ecdLinkStage_map_id]; exact nodup_map_mkId ..
            · intro s hs
              rw [ecdLinkStage_map_id] at hs
              obtain ⟨r, rfl⟩ := mem_map_mkId hs
              exact ⟨_, _, r, rfl⟩
        exact ids_nodup_append hout.1 (ih (i + 1) rest hr).1 hout.2 (ih (i + 1) rest hr).2

/-! ## Lemmas: parent linkage is nearest-preceding-anchor -/

theorem lastSomeD_map_seed (codes : List String) (pairs : List (String × Row)) :
    lastSomeD none (pairs.map (fun p => if isAnchor codes p.2 then some p.1 else none)) =
      (pairs.reverse.find? (fun p => isAnchor codes p.2)).map Prod.fst := by
  induction pairs using List.reverseRecOn with
  | nil => rfl
  | append_singleton xs x ih =>
    rw [List.map_append, lastSomeD_append, List.reverse_append]
    simp only [List.map_cons, List.map_nil, List.reverse_cons, List.reverse_nil,
      List.nil_append, List.singleton_append, List.find?_cons]
    by_cases hx : isAnchor codes x.2
    · simp [lastSomeD, hx]
    · simp only [hx, if_neg, Bool.false_eq_true]
      simpa [lastSomeD] using ih

/-- Entry `k` of the zip of two lists, as a pair of `getD`s. -/
theorem zip_getD {l₁ : List α} {l₂ : List β} {k : Nat} (d₁ : α) (d₂ : β)
    (h₁ : k < l₁.length) (h₂ : k < l₂.length) :
    (l₁.zip l₂).getD k (d₁, d₂) = (l₁.getD k d₁, l₂.getD k d₂) := by
  induction l₁ generalizing l₂ k with
  | nil => simp at h₁
  | cons x xs ih =>
    cases l₂ with
    | nil => simp at h₂
    | cons y ys =>
      cases k with
      | zero => simp [List.zip_cons_cons]
      | succ k =>
        simp only [List.zip_cons_cons, List.getD_cons_succ]
        exact ih (by simpa using h₁) (by simpa using h₂)

/-- Pointwise description of the linked `id_pai` column: an anchor row is
its own parent; any other row points at the nearest preceding anchor (its
id), and at nothing when no anchor precedes it. -/
theorem linkIdPai_getD (codes : List String) (pairs : List (String × Row)) (k : Nat)
    (hk : k < pairs.length) :
    (linkIdPai codes pairs).getD k none =
      if isAnchor codes (pairs.getD k ("", [])).2 then some (pairs.getD k ("", [])).1
      else ((pairs.take k).reverse.find? (fun p => isAnchor codes p.2)).map Prod.fst := by
  unfold linkIdPai ffillCol
  rw [ffillAux_getD _ _ k (by simpa using hk), ← List.map_take, List.take_succ,
    List.getElem?_eq_getElem hk]
  simp only [Option.toList_some, List.map_append, List.map_cons, List.map_nil]
  rw [lastSomeD_append, List.getD_eq_getElem _ _ hk]
  by_cases ha : isAnchor codes (pairs[k]).2
  · simp [ha, lastSomeD]
  · simp only [ha, Bool.false_eq_true, if_false]
    simpa [lastSomeD] using lastSomeD_map_seed codes (pairs.take k)

/-! ## Lemmas: id_pai column projections of the per-file processors -/

theorem processContribParsed_map_id_pai (i : Nat) (rows0 : List Row) :
    (processContribParsed i rows0).map OutRow.id_pai =
      linkIdPai parentRegContrib
        (((List.range (cutSentinel "9999" rows0).length).map
            (mkId i (contribHeader (cutSentinel "9999" rows0)).1
                    (contribHeader (cutSentinel "9999" rows0)).2)).zip
          (cutSentinel "9999" rows0)) := by
  unfold processContribParsed
  by_cases he : (cutSentinel "9999" rows0).isEmpty
  · rw [if_pos he]
    rw [List.isEmpty_iff] at he
    simp [he, linkIdPai, ffillCol, ffillAux]
  · rw [if_neg he]
    apply assembleRows_map_id_pai
    · rw [linkIdPai_length, List.length_zip, List.length_map, List.length_range]
      simp [Nat.min_self]
    · simp [ffillCol_length]
    · simp

theorem ecdLinkStage_map_id_pai (i : Nat) (rows : List Row) :
    (ecdLinkStage i rows).map OutRow.id_pai =
      linkIdPai parentRegEcd
        (((List.range rows.length).map
            (mkId i (ecdHeader rows).1 (ecdHeader rows).2)).zip rows) := by
  unfold ecdLinkStage
  by_cases he : rows.isEmpty
  · rw [if_pos he]
    rw [List.isEmpty_iff] at he
    simp [he, linkIdPai, ffillCol, ffillAux]
  · rw [if_neg he]
    apply assembleRows_map_id_pai
    · rw [linkIdPai_length, List.length_zip, List.length_map, List.length_range]
      simp [Nat.min_self]
    · simp
    · simp

/-! ## Lemmas: header extraction -/

/-- The sentinel cut never changes the first row, so the Contribuições
header always comes from the file's row 0. -/
theorem contribHeader_cutSentinel (r : Row) (rs : List Row) :
    contribHeader (cutSentinel "9999" (r :: rs)) =
      ((r.getD 7 none).map (fun s => s.drop 2), r.getD 9 none) := by
  unfold cutSentinel takeThroughFirst contribHeader
  by_cases h : isType "9999" r <;> simp [h]

/-! ## Lemmas: pipe components of composite ids -/

theorem splitChars_append_pipe (a : List Char) (rest : List Char)
    (ha : ∀ ch ∈ a, ch ≠ '|') :
    splitChars (a ++ '|' :: rest) = a :: splitChars rest := by
  induction a with
  | nil => simp [splitChars]
  | cons c cs ih =>
    have hc : c ≠ '|' := ha c (by simp)
    rw [List.cons_append, splitChars, if_neg hc, ih (fun ch h => ha ch (by simp [h]))]

theorem naData_ne_pipe : ∀ ch ∈ ("NA" : String).data, ch ≠ '|' := by decide

theorem splitPipe_mkId_zero (i : Nat) (p c : Option String) (r : Nat) :
    (splitPipe (mkId i p c r)).getD 0 "" = natStr i := by
  unfold splitPipe
  rw [show (mkId i p c r).toList = (mkId i p c r).data from rfl, mkId_data,
    splitChars_append_pipe _ _ (natDigits_ne_pipe i)]
  rfl

theorem splitPipe_mkId_one (i : Nat) (p c : Option String) (r : Nat)
    (hp : ∀ ch ∈ (orNA p).data, ch ≠ '|') :
    (splitPipe (mkId i p c r)).getD 1 "" = orNA p := by
  unfold splitPipe
  rw [show (mkId i p c r).toList = (mkId i p c r).data from rfl, mkId_data,
    splitChars_append_pipe _ _ (natDigits_ne_pipe i), splitChars_append_pipe _ _ hp]
  rfl

theorem splitPipe_mkId_two (i : Nat) (p c : Option String) (r : Nat)
    (hp : ∀ ch ∈ (orNA p).data, ch ≠ '|') (hc : ∀ ch ∈ (orNA c).data, ch ≠ '|') :
    (splitPipe (mkId i p c r)).getD 2 "" = orNA c := by
  unfold splitPipe
  rw [show (mkId i p c r).toList = (mkId i p c r).data from rfl, mkId_data,
    splitChars_append_pipe _ _ (natDigits_ne_pipe i), splitChars_append_pipe _ _ hp,
    splitChars_append_pipe _ _ hc]
  rfl

/-! ## Lemmas: takeThroughFirst hits the first match -/

theorem findIdx_getD_of_any {p : α → Bool} :
    ∀ {l : List α}, l.any p = true → ∀ d, p (l.getD (l.findIdx p) d) = true := by
  intro l
  induction l with
  | nil => intro h; simp at h
  | cons x xs ih =>
    intro h d
    by_cases hx : p x
    · simp [List.findIdx_cons, hx]
    · simp only [List.any_cons, hx, Bool.false_or] at h
      simp only [List.findIdx_cons, hx, cond_false, List.getD_cons_succ]
      exact ih h d

/-! # Claim theorems -/

/-- **C1**: in every consolidated Relation the loaders return, no two rows
share the same `id`, even when two input files carry the same taxpayer id
and period (the id lead is the file index, which differs); and the
zero-based file index is the first pipe component of every id generated
for that file's rows.  Conjuncts: id-column uniqueness for the
Contribuições, Fiscal and ECD loaders, then the file-index component for
the Contribuições and Fiscal per-file processors. -/
theorem c1_consolidated_id_uniqueness :
    (∀ (files : List InputFile) (rel : List OutRow),
        load_and_process_data files = .ok rel → (rel.map OutRow.id).Nodup)
  ∧ (∀ (files : List InputFile) (rel : List OutRow),
        load_and_process_sped_fiscal files = .ok rel → (rel.map OutRow.id).Nodup)
  ∧ (∀ (files : List InputFile) (rel : List OutRow),
        load_and_process_ecd files = .ok rel → (rel.map OutRow.id).Nodup)
  ∧ (∀ (i : Nat) (rows0 : List Row) (o : OutRow), o ∈ processContribParsed i rows0 →
        (splitPipe o.id).getD 0 "" = natStr i)
  ∧ (∀ (i : Nat) (rows : List Row) (o : OutRow), o ∈ processFiscalParsed i rows →
        (splitPipe o.id).getD 0 "" = natStr i) := by
  refine ⟨?_, ?_, ?_, ?_, ?_⟩
  · intro files rel h
    unfold load_and_process_data at h
    split at h
    · cases h
    · cases haux : contribLoadAux 0 files with
      | error e => rw [haux] at h; cases h
      | ok all =>
        rw [haux] at h
        dsimp only at h
        by_cases he : all.isEmpty = true
        · rw [if_pos he] at h; cases h
        · rw [if_neg he] at h
          cases h
          exact (contribLoadAux_ids files 0 _ haux).1
  · intro files rel h
    unfold load_and_process_sped_fiscal at h
    split at h
    · cases h
    · cases haux : fiscalLoadAux 0 files with
      | error e => rw [haux] at h; cases h
      | ok all =>
        rw [haux] at h
        dsimp only at h
        by_cases he : all.isEmpty = true
        · rw [if_pos he] at h; cases h
        · rw [if_neg he] at h
          cases h
          have hn := (fiscalLoadAux_ids files 0 _ haux).1
          rw [dedupKeepLastBy_of_nodup hn]
          exact hn
  · intro files rel h
    unfold load_and_process_ecd at h
    split at h
    · cases h
    · cases haux : ecdLoadAux 0 files with
      | error e => rw [haux] at h; cases h
      | ok all =>
        rw [haux] at h
        dsimp only at h
        by_cases he : all.isEmpty = true
        · rw [if_pos he] at h; cases h
        · rw [if_neg he] at h
          cases h
          exact (ecdLoadAux_ids files 0 _ haux).1
  · intro i rows0 o ho
    have hid : o.id ∈ (processContribParsed i rows0).map OutRow.id :=
      List.mem_map_of_mem OutRow.id ho
    rw [processContribParsed_map_id] at hid
    obtain ⟨r, hr⟩ := mem_map_mkId hid
    rw [hr]
    exact splitPipe_mkId_zero ..
  · intro i rows o ho
    have hid : o.id ∈ (processFiscalParsed i rows).map OutRow.id :=
      List.mem_map_of_mem OutRow.id ho
    rw [processFiscalParsed_map_id] at hid
    obtain ⟨r, hr⟩ := mem_map_mkId hid
    rw [hr]
    exact splitPipe_mkId_zero ..

/-- Witness for C1: a batch made of the same Contribuições file twice
(identical taxpayer id and period) still gets a duplicate-free id column. -/
theorem c1_witness :
    ((resultRows (load_and_process_data [wContribA, wContribA])).map OutRow.id).Nodup :=
  c1_consolidated_id_uniqueness.1 [wContribA, wContribA] _ rfl

/-- **C2**: in every per-file Relation after linkage, a row whose
record-type (column `"1"`) is in the family's parent-code set has
`id_pai` equal to its own `id`; every other row's `id_pai` is the `id` of
the nearest preceding anchor row of the file (last anchor wins), and is
null for rows before the first anchor.  Conjunct 1 states this pointwise
for the linkage core `linkIdPai` (any parent-code set); conjuncts 2-3
identify the `id_pai` column of the Contribuições and ECD per-file
processors with that core applied to their id/row pairs. -/
theorem c2_parent_linkage :
    (∀ (codes : List String) (pairs : List (String × Row)) (k : Nat), k < pairs.length →
        (isAnchor codes (pairs.getD k ("", [])).2 = true →
          (linkIdPai codes pairs).getD k none = some (pairs.getD k ("", [])).1)
      ∧ (isAnchor codes (pairs.getD k ("", [])).2 = false →
          (linkIdPai codes pairs).getD k none =
            ((pairs.take k).reverse.find? (fun p => isAnchor codes p.2)).map Prod.fst))
  ∧ (∀ (i : Nat) (rows0 : List Row),
      (processContribParsed i rows0).map OutRow.id_pai =
        linkIdPai parentRegContrib
          (((List.range (cutSentinel "9999" rows0).length).map
              (mkId i (contribHeader (cutSentinel "9999" rows0)).1
                      (contribHeader (cutSentinel "9999" rows0)).2)).zip
            (cutSentinel "9999" rows0)))
  ∧ (∀ (i : Nat) (rows : List Row),
      (ecdLinkStage i rows).map OutRow.id_pai =
        linkIdPai parentRegEcd
          (((List.range rows.length).map
              (mkId i (ecdHeader rows).1 (ecdHeader rows).2)).zip rows)) := by
  refine ⟨?_, processContribParsed_map_id_pai, ecdLinkStage_map_id_pai⟩
  intro codes pairs k hk
  constructor
  · intro ha
    rw [linkIdPai_getD codes pairs k hk, if_pos ha]
  · intro ha
    rw [linkIdPai_getD codes pairs k hk, if_neg (by simp only [Bool.not_eq_true]; exact ha)]

/-- Witness for C2: with a `0000` anchor followed by a non-anchor row, the
non-anchor row's `id_pai` is the anchor's id. -/
theorem c2_witness :
    (linkIdPai parentRegContrib
        [("id0", [none, some "0000"]), ("id1", [none, some "XYZ"])]).getD 1 none = some "id0" := by
  have h := (c2_parent_linkage.1 parentRegContrib
      [("id0", [none, some "0000"]), ("id1", [none, some "XYZ"])] 1 (by decide)).2 (by decide)
  rw [h]
  decide

/-- **C4**: for the ECD family, a file whose first `I200` start marker
precedes its first `I350` end marker yields a Relation with exactly the
rows from the start marker up to (not including) the end marker removed —
for EVERY partition of the rows into reader chunks (conjunct 1); and the
per-file pipeline's own chunked pass equals the chunk-free window
semantics on any input (conjunct 2). -/
theorem c4_window_closed :
    (∀ (rows : List Row) (chunks : List (List Row)), chunks.flatten = rows →
        rows.any is200 = true → rows.any is350 = true →
        rows.findIdx is200 < rows.findIdx is350 →
        runWindow wInit chunks =
          rows.take (rows.findIdx is200) ++ rows.drop (rows.findIdx is350))
  ∧ (∀ (i : Nat) (f : InputFile), f.cFails = false →
        process_single_ecd_file i f =
          .ok (ecdLinkStage i (cutSentinel "I990"
            (ecdWindowSpec (parseRows columnCountEcd (preScan f.lines)))))) := by
  constructor
  · intro rows chunks hfl h2 h3 hij
    subst hfl
    rw [runWindow_spec]
    unfold ecdWindowSpec
    rw [if_pos h2, if_pos h3, if_pos hij]
  · intro i f hc
    unfold process_single_ecd_file
    rw [hc]
    simp only [Bool.false_and, Bool.false_eq_true, if_false]
    rw [runWindow_spec, flatten_chunksOf chunkSize (by decide)]

/-- Witness for C4: a five-row file with the window split across three
chunks; the two bulk rows between `I200` and `I350` are removed. -/
theorem c4_witness :
    runWindow wInit
        [[[none, some "0001"], [none, some "I200"]], [[none, some "x"]],
         [[none, some "I350"], [none, some "z"]]] =
      [[none, some "0001"], [none, some "I350"], [none, some "z"]] := by
  have h := c4_window_closed.1
    [[none, some "0001"], [none, some "I200"], [none, some "x"],
     [none, some "I350"], [none, some "z"]]
    [[[none, some "0001"], [none, some "I200"]], [[none, some "x"]],
     [[none, some "I350"], [none, some "z"]]]
    (by decide) (by decide) (by decide) (by decide)
  exact h.trans (by decide)

/-- **C8**: for the ECD family, a file containing an `I200` start marker
and no `I350` end marker at all yields a Relation truncated strictly
before the start marker: everything from `I200` to end-of-file is removed,
for every chunk partition. -/
theorem c8_window_never_closed :
    ∀ (rows : List Row) (chunks : List (List Row)), chunks.flatten = rows →
      rows.any is200 = true → rows.any is350 = false →
      runWindow wInit chunks = rows.take (rows.findIdx is200) := by
  intro rows chunks hfl h2 h3
  subst hfl
  rw [runWindow_spec]
  unfold ecdWindowSpec
  rw [if_pos h2, if_neg (by simp [h3])]

/-- Witness for C8: an unterminated bulk section spanning two chunks is
dropped entirely, keeping only the rows before `I200`. -/
theorem c8_witness :
    runWindow wInit
        [[[none, some "0001"], [none, some "I200"]], [[none, some "x"], [none, some "I990"]]] =
      [[none, some "0001"]] := by
  have h := c8_window_never_closed
    [[none, some "0001"], [none, some "I200"], [none, some "x"], [none, some "I990"]]
    [[[none, some "0001"], [none, some "I200"]], [[none, some "x"], [none, some "I990"]]]
    (by decide) (by decide) (by decide)
  exact h.trans (by decide)

/-- **C3 counterexample**: an ECD file whose `I990` sentinel row lies
inside an unclosed `I200` window.  The parsed file contains an `I990` row,
but the per-file Relation contains no `I990` row at all (the window filter
removed it before the sentinel cut), contradicting the claim that the
output always contains the first sentinel row. -/
theorem c3_counterexample :
    (parseRows columnCountEcd (preScan cexEcdUnclosed.lines)).any (isType "I990") = true
  ∧ ((resultRows (process_single_ecd_file 0 cexEcdUnclosed)).map OutRow.fields).any
      (isType "I990") = false := by
  exact ⟨by decide, by decide⟩

/-- **C3 (amended)**: sentinel truncation holds except that for the ECD
family an `I990` row inside an unclosed `I200` window is removed by the
window filter, so the output then contains no sentinel row.  Conjunct 1:
appending any trailer lines after a `|9999|`-prefixed line never changes
what the Contribuições loader parses.  Conjunct 2: a row list containing a
`9999`-typed row is cut to the prefix ending at the first such row, which
the cut retains.  Conjunct 3: an ECD file with no `I200` row is truncated
at the first `I990` row exactly as claimed. -/
theorem c3_amended :
    (∀ (ls tr : List String) (c py ff : Bool), ls.any (strStarts "|9999|") = true →
        contribParse ⟨ls ++ tr, c, py, ff⟩ = contribParse ⟨ls, c, py, ff⟩)
  ∧ (∀ (rows : List Row), rows.any (isType "9999") = true →
        cutSentinel "9999" rows = rows.take (rows.findIdx (isType "9999") + 1)
      ∧ isType "9999" (rows.getD (rows.findIdx (isType "9999")) []) = true)
  ∧ (∀ (i : Nat) (f : InputFile), f.cFails = false →
        (parseRows columnCountEcd (preScan f.lines)).any is200 = false →
        process_single_ecd_file i f =
          .ok (ecdLinkStage i (cutSentinel "I990"
            (parseRows columnCountEcd (preScan f.lines))))) := by
  refine ⟨?_, ?_, ?_⟩
  · intro ls tr c py ff hls
    unfold contribParse preScan
    rw [takeThroughFirst_append_of_any tr hls]
  · intro rows hany
    refine ⟨?_, findIdx_getD_of_any hany []⟩
    rw [cutSentinel, takeThroughFirst_eq, if_pos hany]
  · intro i f hc h200
    unfold process_single_ecd_file
    rw [hc]
    simp only [Bool.false_and, Bool.false_eq_true, if_false]
    rw [runWindow_spec, flatten_chunksOf chunkSize (by decide)]
    unfold ecdWindowSpec
    rw [if_neg (by simp [h200])]

/-- Witness for C3 (amended): trailer lines after the `|9999|` line are
discarded, and the cut keeps exactly the prefix through the first
`9999`-typed row. -/
theorem c3_witness :
    contribParse ⟨["|0000|x", "|9999|end", "trailer", "junk"], false, false, false⟩ =
      contribParse ⟨["|0000|x", "|9999|end"], false, false, false⟩
  ∧ cutSentinel "9999" [[none, some "0000"], [none, some "9999"], [none, some "zz"]] =
      [[none, some "0000"], [none, some "9999"]] := by
  constructor
  · exact c3_amended.1 ["|0000|x", "|9999|end"] ["trailer", "junk"] false false false (by decide)
  · have h := (c3_amended.2.1
      [[none, some "0000"], [none, some "9999"], [none, some "zz"]] (by decide)).1
    exact h.trans (by decide)

/-- **C5 counterexample**: ingesting the same Fiscal file twice is NOT
idempotent: both batches load successfully, but `[fileA, fileA]` yields
six rows where `[fileA]` yields three — the file index inside every id
keeps the two copies' ids distinct, so the keep-last deduplication
collapses nothing. -/
theorem c5_counterexample :
    load_and_process_sped_fiscal [wFiscalA, wFiscalA] =
      .ok (resultRows (load_and_process_sped_fiscal [wFiscalA, wFiscalA]))
  ∧ load_and_process_sped_fiscal [wFiscalA] =
      .ok (resultRows (load_and_process_sped_fiscal [wFiscalA]))
  ∧ (resultRows (load_and_process_sped_fiscal [wFiscalA, wFiscalA])).length = 6
  ∧ (resultRows (load_and_process_sped_fiscal [wFiscalA])).length = 3
  ∧ resultRows (load_and_process_sped_fiscal [wFiscalA, wFiscalA]) ≠
      resultRows (load_and_process_sped_fiscal [wFiscalA]) := by
  exact ⟨rfl, rfl, by decide, by decide, by decide⟩

/-- **C5 (amended)**: after concatenation the Fiscal consolidator does
collapse rows sharing an id (keep-last), but ids never collide — the file
index is a component of every id — so the deduplication is vacuous
(conjunct 1) and ingesting `[fileA, fileA]` returns fileA's rows twice,
under file indices 0 and 1, rather than the single-file Relation
(conjunct 2). -/
theorem c5_amended :
    (∀ (files : List InputFile) (all : List OutRow), fiscalLoadAux 0 files = .ok all →
        dedupKeepLastBy OutRow.id all = all)
  ∧ (∀ (f : InputFile), f.cFails = false →
      (processFiscalParsed 0 (parseRows columnCountFiscal (preScan f.lines))).isEmpty = false →
      load_and_process_sped_fiscal [f, f] =
        .ok (processFiscalParsed 0 (parseRows columnCountFiscal (preScan f.lines)) ++
             processFiscalParsed 1 (parseRows columnCountFiscal (preScan f.lines)))) := by
  constructor
  · intro files all haux
    exact dedupKeepLastBy_of_nodup (fiscalLoadAux_ids files 0 all haux).1
  · intro f hc hne
    have hparse : fiscalParse f = .ok (parseRows columnCountFiscal (preScan f.lines)) := by
      unfold fiscalParse
      rw [hc]
      simp
    have haux : fiscalLoadAux 0 [f, f] =
        .ok (processFiscalParsed 0 (parseRows columnCountFiscal (preScan f.lines)) ++
             processFiscalParsed 1 (parseRows columnCountFiscal (preScan f.lines))) := by
      unfold fiscalLoadAux
      rw [hparse]
      unfold fiscalLoadAux
      rw [hparse]
      simp [fiscalLoadAux]
    unfold load_and_process_sped_fiscal
    rw [haux]
    dsimp only
    have hemp : (processFiscalParsed 0 (parseRows columnCountFiscal (preScan f.lines)) ++
        processFiscalParsed 1 (parseRows columnCountFiscal (preScan f.lines))).isEmpty ≠ true := by
      intro hcon
      rw [List.isEmpty_iff, List.append_eq_nil] at hcon
      rw [hcon.1] at hne
      simp at hne
    rw [if_neg hemp, dedupKeepLastBy_of_nodup (fiscalLoadAux_ids [f, f] 0 _ haux).1]
    rfl

/-- Witness for C5 (amended): the concrete double batch keeps all six rows. -/
theorem c5_witness :
    load_and_process_sped_fiscal [wFiscalA, wFiscalA] =
      .ok (processFiscalParsed 0 (parseRows columnCountFiscal (preScan wFiscalA.lines)) ++
           processFiscalParsed 1 (parseRows columnCountFiscal (preScan wFiscalA.lines))) :=
  c5_amended.2 wFiscalA rfl (by decide)

set_option maxRecDepth 8000 in
/-- **C6**: an all-empty batch.  The Contribuições and ECD loaders raise
the user-facing "no valid input" condition as the claim states, but the
Fiscal loader has no such guard: `pd.concat([])` raises an uncaught
`ValueError` (modelled `concatNoObjects`) instead — the spec is the
evident intent (its two sibling loaders implement exactly that guard) and
the missing guard is a code slip.  A batch with one valid file succeeds
with only the valid file's rows. -/
theorem c6_all_empty_batch :
    load_and_process_sped_fiscal [cexAllBad] = .error .concatNoObjects
  ∧ load_and_process_data [cexAllBad] = .error .noValidInput
  ∧ load_and_process_ecd [cexAllBad] = .error .noValidInput
  ∧ resultRows (load_and_process_sped_fiscal [cexAllBad, wFiscalA]) =
      processFiscalParsed 1 (parseRows columnCountFiscal (preScan wFiscalA.lines))
  ∧ resultRows (load_and_process_data [cexAllBad, wContribA]) =
      processContribParsed 1 (parseRows columnCountContrib (preScan wContribA.lines)) := by
  exact ⟨rfl, rfl, rfl, by decide, by decide⟩

/-- **C7 counterexample**: a batch pairing a file that fails every parse
tier with a perfectly valid file does NOT proceed with the valid file —
the uncaught decoder failure aborts the whole load (no per-file warning
exists in the loader), even though the valid file alone loads fine. -/
theorem c7_counterexample :
    load_and_process_data [cexBothTiersFail, wContribA] = .error .parseFailure
  ∧ resultRows (load_and_process_data [wContribA]) ≠ [] := by
  exact ⟨rfl, by decide⟩

/-- **C7 (amended)**: a file whose parse fails on every fallback tier is
not skipped with a warning; its failure propagates and aborts the whole
batch for both the Contribuições and the Fiscal loader.  Only files that
parse to zero rows are skipped (silently), as the other claims' positive
cases show. -/
theorem c7_amended :
    (∀ (files : List InputFile), (∃ f ∈ files, f.cFails = true ∧ f.pyFails = true) →
        load_and_process_data files = .error .parseFailure)
  ∧ (∀ (files : List InputFile), (∃ f ∈ files, f.cFails = true ∧ f.pyFails = true) →
        load_and_process_sped_fiscal files = .error .parseFailure) := by
  have hcontrib : ∀ (files : List InputFile) (i : Nat),
      (∃ f ∈ files, f.cFails = true ∧ f.pyFails = true) →
      contribLoadAux i files = .error .parseFailure := by
    intro files
    induction files with
    | nil => intro i h; simp at h
    | cons f fs ih =>
      intro i h
      unfold contribLoadAux
      rcases h with ⟨g, hg, hgc, hgp⟩
      rcases List.mem_cons.mp hg with rfl | hgs
      · rw [show contribParse g = .error .parseFailure by
          unfold contribParse
          rw [hgc, hgp]
          rfl]
      · cases hp : contribParse f with
        | error e =>
          have : e = .parseFailure := by
            unfold contribParse at hp
            split at hp
            · split at hp
              · cases hp; rfl
              · cases hp
            · cases hp
          rw [this]
        | ok rows => rw [ih (i + 1) ⟨g, hgs, hgc, hgp⟩]
  have hfiscal : ∀ (files : List InputFile) (i : Nat),
      (∃ f ∈ files, f.cFails = true ∧ f.pyFails = true) →
      fiscalLoadAux i files = .error .parseFailure := by
    intro files
    induction files with
    | nil => intro i h; simp at h
    | cons f fs ih =>
      intro i h
      unfold fiscalLoadAux
      rcases h with ⟨g, hg, hgc, hgp⟩
      rcases List.mem_cons.mp hg with rfl | hgs
      · rw [show fiscalParse g = .error .parseFailure by
          unfold fiscalParse
          rw [hgc, hgp]
          rfl]
      · cases hp : fiscalParse f with
        | error e =>
          have : e = .parseFailure := by
            unfold fiscalParse at hp
            split at hp
            · split at hp
              · cases hp; rfl
              · cases hp
            · cases hp
          rw [this]
        | ok rows => rw [ih (i + 1) ⟨g, hgs, hgc, hgp⟩]
  constructor
  · intro files h
    have hne : files.isEmpty ≠ true := by
      rcases h with ⟨g, hg, _⟩
      intro hcon
      rw [List.isEmpty_iff] at hcon
      subst hcon
      simp at hg
    unfold load_and_process_data
    rw [if_neg hne, hcontrib files 0 h]
  · intro files h
    have hne : files.isEmpty ≠ true := by
      rcases h with ⟨g, hg, _⟩
      intro hcon
      rw [List.isEmpty_iff] at hcon
      subst hcon
      simp at hg
    unfold load_and_process_sped_fiscal
    rw [if_neg hne, hfiscal files 0 h]

/-- Witness for C7 (amended): the concrete mixed batch aborts with the
propagated parse failure. -/
theorem c7_witness :
    load_and_process_data [cexBothTiersFail, wContribA] = .error .parseFailure :=
  c7_amended.1 [cexBothTiersFail, wContribA] ⟨cexBothTiersFail, by decide, rfl, rfl⟩

set_option maxRecDepth 8000 in
/-- **C9 counterexample**: a wrong-field-count row (47 fields > 40) whose
text begins with the sentinel marker `|9999|`.  Inserting it into a valid
two-row file truncates the pre-scan at the malformed line: the surviving
Relation has one row instead of two, so the insertion did perturb the
ingestion of the other rows, contradicting the claim as universally
stated. -/
theorem c9_counterexample :
    columnCountContrib < (splitPipe cexBadSentinelLine).length
  ∧ (processContribParsed 0 (parseRows columnCountContrib
        (preScan ["|0000|a|b|c|d|e|f|xx2301|g|55443322", cexBadSentinelLine, "|A100|p|q"]))).length = 1
  ∧ (processContribParsed 0 (parseRows columnCountContrib
        (preScan ["|0000|a|b|c|d|e|f|xx2301|g|55443322", "|A100|p|q"]))).length = 2
  ∧ processContribParsed 0 (parseRows columnCountContrib
        (preScan ["|0000|a|b|c|d|e|f|xx2301|g|55443322", cexBadSentinelLine, "|A100|p|q"])) ≠
      processContribParsed 0 (parseRows columnCountContrib
        (preScan ["|0000|a|b|c|d|e|f|xx2301|g|55443322", "|A100|p|q"])) := by
  exact ⟨by decide, by decide, by decide, by decide⟩

set_option maxRecDepth 8000 in
/-- **C9 (amended)**: inserting a row with more fields than the schema's
column count that does not begin with the sentinel marker `|9999|` leaves
the per-file Relation — ids, `id_pai`, metadata and all — exactly equal to
the Relation of the file without the insertion; the malformed row is
silently dropped.  (A malformed row that does begin with `|9999|` instead
truncates the pre-scan, as the counterexample shows.) -/
theorem c9_amended (i : Nat) (pre post : List String) (bad : String)
    (hlen : columnCountContrib < (splitPipe bad).length)
    (hsent : strStarts "|9999|" bad = false) :
    processContribParsed i (parseRows columnCountContrib (preScan (pre ++ bad :: post))) =
      processContribParsed i (parseRows columnCountContrib (preScan (pre ++ post))) := by
  have hbadne : bad ≠ "" := by
    intro he
    rw [he] at hlen
    revert hlen
    decide
  have hdrop : parseLine columnCountContrib bad = none := by
    unfold parseLine
    rw [if_neg hbadne, if_pos hlen]
  unfold parseRows preScan
  rw [takeThroughFirst_insert_skipped hsent pre post (parseLine columnCountContrib) hdrop]

set_option maxRecDepth 8000 in
/-- Witness for C9 (amended): inserting a 45-field junk row between the
two rows of a valid file leaves the processed Relation unchanged. -/
theorem c9_witness :
    processContribParsed 0 (parseRows columnCountContrib
        (preScan ["|0000|a|b|c|d|e|f|xx2301|g|55443322", wLongLine, "|A100|p|q"])) =
      processContribParsed 0 (parseRows columnCountContrib
        (preScan ["|0000|a|b|c|d|e|f|xx2301|g|55443322", "|A100|p|q"])) :=
  c9_amended 0 ["|0000|a|b|c|d|e|f|xx2301|g|55443322"] ["|A100|p|q"] wLongLine
    (by decide) (by decide)

/-- **C10**: each family's header extractor reads fixed positional fields
of the Relation's first row, never searching for a header-typed row: two
files whose first rows agree on exactly those fields (record-types and
everything else free to differ) receive identical id columns, length
permitting (conjuncts 1-3 for Contribuições / Fiscal / ECD); and when the
fields are null the literal token `NA` appears as the corresponding pipe
components of every generated id (conjunct 4). -/
theorem c10_header_extraction :
    (∀ (i : Nat) (r r' : Row) (rs rs' : List Row),
        r.getD 7 none = r'.getD 7 none → r.getD 9 none = r'.getD 9 none →
        (cutSentinel "9999" (r :: rs)).length = (cutSentinel "9999" (r' :: rs')).length →
        (processContribParsed i (r :: rs)).map OutRow.id =
          (processContribParsed i (r' :: rs')).map OutRow.id)
  ∧ (∀ (i : Nat) (r r' : Row) (rs rs' : List Row),
        r.getD 4 none = r'.getD 4 none → r.getD 7 none = r'.getD 7 none →
        (r :: rs).length = (r' :: rs').length →
        (processFiscalParsed i (r :: rs)).map OutRow.id =
          (processFiscalParsed i (r' :: rs')).map OutRow.id)
  ∧ (∀ (i : Nat) (r r' : Row) (rs rs' : List Row),
        r.getD 3 none = r'.getD 3 none → r.getD 6 none = r'.getD 6 none →
        (r :: rs).length = (r' :: rs').length →
        (ecdLinkStage i (r :: rs)).map OutRow.id = (ecdLinkStage i (r' :: rs')).map OutRow.id)
  ∧ (∀ (i : Nat) (r : Row) (rs : List Row) (o : OutRow),
        r.getD 7 none = none → r.getD 9 none = none →
        o ∈ processContribParsed i (r :: rs) →
        (splitPipe o.id).getD 1 "" = "NA" ∧ (splitPipe o.id).getD 2 "" = "NA") := by
  refine ⟨?_, ?_, ?_, ?_⟩
  · intro i r r' rs rs' h7 h9 hlen
    rw [processContribParsed_map_id, processContribParsed_map_id,
      contribHeader_cutSentinel, contribHeader_cutSentinel, h7, h9, hlen]
  · intro i r r' rs rs' h4 h7 hlen
    rw [processFiscalParsed_map_id, processFiscalParsed_map_id]
    show (List.range (r :: rs).length).map
        (mkId i ((r.getD 4 none).map (fun s => s.drop 2)) (r.getD 7 none)) = _
    rw [h4, h7, hlen]
    rfl
  · intro i r r' rs rs' h3 h6 hlen
    rw [ecdLinkStage_map_id, ecdLinkStage_map_id]
    show (List.range (r :: rs).length).map
        (mkId i ((r.getD 3 none).map (fun s => s.drop 4)) (r.getD 6 none)) = _
    rw [h3, h6, hlen]
    rfl
  · intro i r rs o h7 h9 ho
    have hid : o.id ∈ (processContribParsed i (r :: rs)).map OutRow.id :=
      List.mem_map_of_mem OutRow.id ho
    rw [processContribParsed_map_id, contribHeader_cutSentinel, h7, h9] at hid
    obtain ⟨rr, hrr⟩ := mem_map_mkId hid
    rw [hrr]
    constructor
    · exact splitPipe_mkId_one i (Option.map (fun s : String => s.drop 2) none) none rr
        (by decide)
    · exact splitPipe_mkId_two i (Option.map (fun s : String => s.drop 2) none) none rr
        (by decide) (by decide)

/-- Witness for C10: two one-row files whose first rows differ in
record-type (a `C100` instead of the `0000` header register) but agree on
fields 7 and 9 receive the same id column. -/
theorem c10_witness :
    (processContribParsed 3
        [[none, some "0000", some "a", none, none, none, none, some "xx2301", none,
          some "55443322"]]).map OutRow.id =
      (processContribParsed 3
        [[none, some "C100", some "zz", none, none, none, none, some "xx2301", none,
          some "55443322"]]).map OutRow.id :=
  c10_header_extraction.1 3
    [none, some "0000", some "a", none, none, none, none, some "xx2301", none, some "55443322"]
    [none, some "C100", some "zz", none, none, none, none, some "xx2301", none, some "55443322"]
    [] [] (by decide) (by decide) (by decide)
